import Mathlib

/-!
Shallow embedding of the wasabi UEFI graphics bootstrap (src/main.rs).

The Rust source works over `u32` machine integers whose arithmetic wraps
modulo 2^32 (release semantics); we model every u32 operation with an
explicit `% 2^32`.  Raw memory reached through the frame-buffer pointer is
modelled as a function `Mem : Nat → Nat` from byte addresses to the 4-byte
cell stored at that address; every access the program makes goes through
`unchecked_pixel_at_mut`, whose result is always a multiple of 4 bytes past
the base, so cell granularity keyed by byte address is faithful to the
byte-level behaviour.  Functions taking `&mut self` in Rust are embedded as
functions returning the updated memory together with the `Result` value.
-/

/-- The modulus of Rust's `u32` arithmetic. -/
def u32Mod : Nat := 2 ^ 32

/-- Wrapping `u32` addition. -/
def add32 (a b : Nat) : Nat := (a + b) % u32Mod

/-- Wrapping `u32` multiplication. -/
def mul32 (a b : Nat) : Nat := (a * b) % u32Mod

/-- Wrapping `u32` subtraction. -/
def sub32 (a b : Nat) : Nat := (a + (u32Mod - b % u32Mod)) % u32Mod

/-- `struct EfiGuid` (four fields: u32, u16, u16, [u8; 8]). -/
structure EfiGuid where
  data0 : Nat
  data1 : Nat
  data2 : Nat
  data3 : List Nat
deriving DecidableEq, Repr

/-- `EFI_GRAPHICS_OUTPUT_PROTOCOL_GUID` constant from the source. -/
def EFI_GRAPHICS_OUTPUT_PROTOCOL_GUID : EfiGuid :=
  { data0 := 0x9042a9de
    data1 := 0x23dc
    data2 := 0x4a38
    data3 := [0x96, 0xfb, 0x7a, 0xde, 0xd0, 0x80, 0x51, 0x6a] }

/-- `struct EfiGraphicsOutputProtocolPixelInfo` (value content; its byte
layout is modelled separately by `pixelInfoFields`). -/
structure EfiGraphicsOutputProtocolPixelInfo where
  version : Nat
  horizontal_resolution : Nat
  vertical_resolution : Nat
  pixels_per_scan_line : Nat
deriving DecidableEq, Repr

/-- `struct EfiGraphicsOutputProtocolMode`. -/
structure EfiGraphicsOutputProtocolMode where
  max_mode : Nat
  mode : Nat
  info : EfiGraphicsOutputProtocolPixelInfo
  size_of_info : Nat
  frame_buffer_base : Nat
  frame_buffer_size : Nat
deriving DecidableEq, Repr

/-- `struct EfiGraphicsOutputProtocol` (the three reserved words carry no
program-visible value). -/
structure EfiGraphicsOutputProtocol where
  mode : EfiGraphicsOutputProtocolMode
deriving DecidableEq, Repr

/-- `struct EfiBootServicesTable`: its one used member is the
`locate_protocol` firmware call.  The environment's call is modelled as a
function from the requested GUID to the raw `EfiStatus` word it returns
together with the protocol record it writes through the output slot
(the Rust code passes a null registration token, which carries no data). -/
structure EfiBootServicesTable where
  locate_protocol : EfiGuid → Nat × EfiGraphicsOutputProtocol

/-- `struct EfiSystemTable`: the one used member is the reference to the
boot-services table. -/
structure EfiSystemTable where
  boot_services : EfiBootServicesTable

/-- `fn locate_graphic_protocol`: calls the firmware's `locate_protocol`
with the graphics-output GUID; any status other than `EfiStatus::Success`
(raw value 0) is an error, otherwise the record written into the output
slot is returned. -/
def locate_graphic_protocol (st : EfiSystemTable) :
    Except String EfiGraphicsOutputProtocol :=
  let r := st.boot_services.locate_protocol EFI_GRAPHICS_OUTPUT_PROTOCOL_GUID
  if r.1 ≠ 0 then
    Except.error "Failed to locate Graphics Output Protocol"
  else
    Except.ok r.2

/-- `struct VramBufferInfo`: base pointer and geometry, all `u32`/pointer
values modelled as `Nat`. -/
structure VramBufferInfo where
  buf : Nat
  width : Nat
  height : Nat
  pixels_per_line : Nat
deriving DecidableEq, Repr

/-- `fn init_vram`: locates the protocol and copies base address and the
three geometry fields out of the descriptor. -/
def init_vram (st : EfiSystemTable) : Except String VramBufferInfo :=
  match locate_graphic_protocol st with
  | Except.error e => Except.error e
  | Except.ok gp =>
      Except.ok
        { buf := gp.mode.frame_buffer_base
          width := gp.mode.info.horizontal_resolution
          height := gp.mode.info.vertical_resolution
          pixels_per_line := gp.mode.info.pixels_per_scan_line }

/-- `impl Bitmap for VramBufferInfo`: `bytes_per_pixel` is fixed at 4.
The other trait accessors are the structure projections; the trait's
default methods below are specialised to this sole implementor. -/
def VramBufferInfo.bytes_per_pixel (_ : VramBufferInfo) : Nat := 4

/-- Memory reachable from the frame buffer: byte address to 4-byte cell. -/
def Mem : Type := Nat → Nat

/-- Write the 4-byte cell at byte address `a`. -/
def writeCell (m : Mem) (a c : Nat) : Mem :=
  fun i => if i = a then c else m i

/-- `Bitmap::unchecked_pixel_at_mut`: the byte address
`buf + (y * pixels_per_line + x) * bytes_per_pixel`, the offset computed
in wrapping `u32` arithmetic exactly as in the source. -/
def unchecked_pixel_at_mut (b : VramBufferInfo) (x y : Nat) : Nat :=
  b.buf + mul32 (add32 (mul32 y b.pixels_per_line) x) b.bytes_per_pixel

/-- `Bitmap::is_in_x_range`: `px < min(width, pixels_per_line)`. -/
def is_in_x_range (b : VramBufferInfo) (px : Nat) : Bool :=
  px < min b.width b.pixels_per_line

/-- `Bitmap::is_in_y_range`: `py < height`. -/
def is_in_y_range (b : VramBufferInfo) (py : Nat) : Bool :=
  py < b.height

/-- `Bitmap::pixel_at_mut`: the checked accessor; returns the cell address
when both range checks pass, and no value otherwise. -/
def pixel_at_mut (b : VramBufferInfo) (x y : Nat) : Option Nat :=
  if is_in_x_range b x && is_in_y_range b y then
    some (unchecked_pixel_at_mut b x y)
  else
    none

/-- `fn unchecked_draw_point`: store `color` through the unchecked address. -/
def unchecked_draw_point (b : VramBufferInfo) (m : Mem) (color x y : Nat) :
    Mem :=
  writeCell m (unchecked_pixel_at_mut b x y) color

/-- `fn draw_point`: checked single-pixel write; `Err("Out of bounds")`
without touching memory when the checked accessor returns no value. -/
def draw_point (b : VramBufferInfo) (m : Mem) (color x y : Nat) :
    Mem × Except String Unit :=
  match pixel_at_mut b x y with
  | some a => (writeCell m a color, Except.ok ())
  | none => (m, Except.error "Out of bounds")

/-- Inner loop of `fn fill_rect`: `for j in 0..w` writing at `x + j` in row
`yi` (`x + j` is a wrapping `u32` addition), in increasing `j`. -/
def fill_row (b : VramBufferInfo) (m : Mem) (color x yi : Nat) :
    Nat → Mem
  | 0 => m
  | Nat.succ j =>
      unchecked_draw_point b (fill_row b m color x yi j) color (add32 x j) yi

/-- Outer loop of `fn fill_rect`: `for i in 0..h` filling row `y + i`
(a wrapping `u32` addition), in increasing `i`. -/
def fill_rows (b : VramBufferInfo) (m : Mem) (color x y w : Nat) :
    Nat → Mem
  | 0 => m
  | Nat.succ i =>
      fill_row b (fill_rows b m color x y w i) color x (add32 y i) w

/-- `fn fill_rect`: validates `(x, y)` and the wrapped far corner
`(x + w - 1, y + h - 1)` (u32 arithmetic) before any write, then fills the
rectangle row-major through the unchecked accessor. -/
def fill_rect (b : VramBufferInfo) (m : Mem) (color x y w h : Nat) :
    Mem × Except String Unit :=
  if !(is_in_x_range b x) || !(is_in_y_range b y)
      || !(is_in_x_range b (sub32 (add32 x w) 1))
      || !(is_in_y_range b (sub32 (add32 y h) 1)) then
    (m, Except.error "Out of bounds")
  else
    (fill_rows b m color x y w h, Except.ok ())

/-!
Byte layout of the `#[repr(C)]` records whose offsets and size the source
asserts at build time (`const _: () = assert!(...)`).  A record is a list
of `(size, alignment)` pairs; `offsetsC` computes each field's byte offset
under the C layout rules and `sizeC` the record size including tail
padding.
-/

/-- Round `o` up to the next multiple of the alignment `a`. -/
def alignUp (o a : Nat) : Nat := (o + a - 1) / a * a

/-- Field offsets of a `#[repr(C)]` record from its `(size, align)` list. -/
def offsetsC : Nat → List (Nat × Nat) → List Nat
  | _, [] => []
  | o, f :: rest =>
      alignUp o f.2 :: offsetsC (alignUp o f.2 + f.1) rest

/-- Offset one past the last field of a `#[repr(C)]` record. -/
def structEnd : Nat → List (Nat × Nat) → Nat
  | o, [] => o
  | o, f :: rest => structEnd (alignUp o f.2 + f.1) rest

/-- Size of a `#[repr(C)]` record: field extent padded to the strictest
field alignment. -/
def sizeC (fields : List (Nat × Nat)) : Nat :=
  alignUp (structEnd 0 fields) (fields.foldl (fun m f => max m f.2) 1)

/-- `EfiBootServicesTable` fields: `_reserved0: [u64; 40]` then the
`locate_protocol` function pointer (8 bytes, 8-aligned). -/
def bootServicesFields : List (Nat × Nat) := [(320, 8), (8, 8)]

/-- `EfiSystemTable` fields: `_reserved0: [u64; 12]` then the
`boot_services` reference (8 bytes, 8-aligned). -/
def systemTableFields : List (Nat × Nat) := [(96, 8), (8, 8)]

/-- `EfiGraphicsOutputProtocolPixelInfo` fields: `version: u32`,
`horizontal_resolution: u32`, `vertical_resolution: u32`,
`_padding: [u32; 5]`, `pixels_per_scan_line: u32`. -/
def pixelInfoFields : List (Nat × Nat) :=
  [(4, 4), (4, 4), (4, 4), (20, 4), (4, 4)]

/-! ### Arithmetic and memory lemmas -/

lemma writeCell_self (m : Mem) (a c : Nat) : writeCell m a c a = c := by
  simp [writeCell]

lemma writeCell_ne (m : Mem) (a c i : Nat) (h : i ≠ a) :
    writeCell m a c i = m i := by
  simp [writeCell, h]

lemma mul32_mod_left (a b : Nat) : mul32 (a % u32Mod) b = mul32 a b := by
  simp [mul32, Nat.mod_mul_mod]

lemma add32_mod_right (a b : Nat) : add32 a (b % u32Mod) = add32 a b := by
  simp [add32, Nat.add_mod_mod]

/-- The unchecked address is unchanged when its coordinates are reduced
modulo `2^32`: wrapping `x + j` and `y + i` before the offset computation
gives the same address as the mathematical sums. -/
lemma unchecked_pixel_at_mut_add32 (b : VramBufferInfo) (x j y i : Nat) :
    unchecked_pixel_at_mut b (add32 x j) (add32 y i)
      = unchecked_pixel_at_mut b (x + j) (y + i) := by
  simp only [unchecked_pixel_at_mut, add32, mul32, Nat.mod_mul_mod,
    Nat.add_mod_mod, Nat.mod_add_mod]

/-- Closed form of the unchecked address when the byte offset does not
wrap. -/
lemma unchecked_pixel_at_mut_eq_of_lt (b : VramBufferInfo) (x y : Nat)
    (h : (y * b.pixels_per_line + x) * 4 < u32Mod) :
    unchecked_pixel_at_mut b x y = b.buf + (y * b.pixels_per_line + x) * 4 := by
  unfold unchecked_pixel_at_mut mul32 add32 VramBufferInfo.bytes_per_pixel
  rw [Nat.mod_add_mod, Nat.mod_mul_mod, Nat.mod_eq_of_lt h]

/-! ### Range-check lemmas -/

lemma is_in_x_range_iff (b : VramBufferInfo) (px : Nat) :
    is_in_x_range b px = true ↔ px < min b.width b.pixels_per_line := by
  simp [is_in_x_range]

lemma is_in_y_range_iff (b : VramBufferInfo) (py : Nat) :
    is_in_y_range b py = true ↔ py < b.height := by
  simp [is_in_y_range]

lemma pixel_at_mut_eq_none_iff (b : VramBufferInfo) (x y : Nat) :
    pixel_at_mut b x y = none
      ↔ min b.width b.pixels_per_line ≤ x ∨ b.height ≤ y := by
  unfold pixel_at_mut
  by_cases hx : x < min b.width b.pixels_per_line <;>
    by_cases hy : y < b.height <;>
      simp [is_in_x_range, is_in_y_range, hx, hy, Nat.not_lt] <;> omega

lemma pixel_at_mut_eq_some (b : VramBufferInfo) (x y : Nat)
    (hx : x < min b.width b.pixels_per_line) (hy : y < b.height) :
    pixel_at_mut b x y = some (unchecked_pixel_at_mut b x y) := by
  unfold pixel_at_mut
  simp [is_in_x_range, is_in_y_range, hx, hy]

/-- The Bool guard of `fill_rect`, phrased as the four corner conditions. -/
lemma fill_rect_guard_iff (b : VramBufferInfo) (x y w h : Nat) :
    (!(is_in_x_range b x) || !(is_in_y_range b y)
        || !(is_in_x_range b (sub32 (add32 x w) 1))
        || !(is_in_y_range b (sub32 (add32 y h) 1))) = true
      ↔ min b.width b.pixels_per_line ≤ x ∨ b.height ≤ y
          ∨ min b.width b.pixels_per_line ≤ sub32 (add32 x w) 1
          ∨ b.height ≤ sub32 (add32 y h) 1 := by
  by_cases h1 : x < min b.width b.pixels_per_line <;>
    by_cases h2 : y < b.height <;>
      by_cases h3 : sub32 (add32 x w) 1 < min b.width b.pixels_per_line <;>
        by_cases h4 : sub32 (add32 y h) 1 < b.height <;>
          simp [is_in_x_range, is_in_y_range, h1, h2, h3, h4, Nat.not_lt] <;>
            omega

/-! ### Loop lemmas for `fill_rect` -/

/-- Each cell after the inner loop holds either the fill color or its old
value. -/
lemma fill_row_cases (b : VramBufferInfo) (m : Mem) (color x yi : Nat)
    (w a : Nat) :
    fill_row b m color x yi w a = color ∨ fill_row b m color x yi w a = m a := by
  induction w with
  | zero => exact Or.inr rfl
  | succ j ih =>
      unfold fill_row unchecked_draw_point
      by_cases hj : a = unchecked_pixel_at_mut b (add32 x j) yi
      · subst hj; exact Or.inl (writeCell_self _ _ _)
      · rw [writeCell_ne _ _ _ _ hj]; exact ih

/-- Every cell targeted by the inner loop holds the fill color when the
loop finishes. -/
lemma fill_row_covered (b : VramBufferInfo) (m : Mem) (color x yi : Nat)
    (w j : Nat) (hj : j < w) :
    fill_row b m color x yi w (unchecked_pixel_at_mut b (add32 x j) yi)
      = color := by
  induction w with
  | zero => omega
  | succ w' ih =>
      unfold fill_row unchecked_draw_point
      by_cases hja :
          unchecked_pixel_at_mut b (add32 x j) yi
            = unchecked_pixel_at_mut b (add32 x w') yi
      · rw [hja]; exact writeCell_self _ _ _
      · rw [writeCell_ne _ _ _ _ hja]
        have hj' : j < w' := by
          rcases Nat.lt_succ_iff_lt_or_eq.mp hj with h | h
          · exact h
          · exact absurd (by rw [h]) hja
        exact ih hj'

/-- Cells not targeted by the inner loop are unchanged by it. -/
lemma fill_row_frame (b : VramBufferInfo) (m : Mem) (color x yi w a : Nat)
    (ha : ∀ j < w, a ≠ unchecked_pixel_at_mut b (add32 x j) yi) :
    fill_row b m color x yi w a = m a := by
  induction w with
  | zero => rfl
  | succ j ih =>
      unfold fill_row unchecked_draw_point
      rw [writeCell_ne _ _ _ _ (ha j (Nat.lt_succ_self j))]
      exact ih fun j' hj' => ha j' (Nat.lt_succ_of_lt hj')

/-- Every cell targeted by the nested loops holds the fill color when they
finish. -/
lemma fill_rows_covered (b : VramBufferInfo) (m : Mem) (color x y w h : Nat)
    (i j : Nat) (hi : i < h) (hj : j < w) :
    fill_rows b m color x y w h
        (unchecked_pixel_at_mut b (add32 x j) (add32 y i)) = color := by
  induction h with
  | zero => omega
  | succ h' ih =>
      unfold fill_rows
      rcases Nat.lt_succ_iff_lt_or_eq.mp hi with hi' | hi'
      · rcases fill_row_cases b (fill_rows b m color x y w h') color x
            (add32 y h') w (unchecked_pixel_at_mut b (add32 x j) (add32 y i))
          with hc | hc
        · exact hc
        · rw [hc]; exact ih hi'
      · subst hi'; exact fill_row_covered _ _ _ _ _ _ _ hj

/-- Cells not targeted by the nested loops are unchanged by them. -/
lemma fill_rows_frame (b : VramBufferInfo) (m : Mem) (color x y w h a : Nat)
    (ha : ∀ i < h, ∀ j < w,
      a ≠ unchecked_pixel_at_mut b (add32 x j) (add32 y i)) :
    fill_rows b m color x y w h a = m a := by
  induction h with
  | zero => rfl
  | succ h' ih =>
      unfold fill_rows
      rw [fill_row_frame _ _ _ _ _ _ _
        (fun j hj => ha h' (Nat.lt_succ_self h') j hj)]
      exact ih fun i hi j hj => ha i (Nat.lt_succ_of_lt hi) j hj

/-- A zero-width inner loop writes nothing, whatever the row count. -/
lemma fill_rows_zero_w (b : VramBufferInfo) (m : Mem) (color x y h : Nat) :
    fill_rows b m color x y 0 h = m := by
  induction h with
  | zero => rfl
  | succ h' ih => unfold fill_rows fill_row; exact ih

/-! ### Concrete fixtures used by witness theorems -/

/-- A small buffer with padding columns: `stride = width + 2`. -/
def testBuf : VramBufferInfo :=
  { buf := 0, width := 4, height := 4, pixels_per_line := 6 }

/-- An all-zero initial memory. -/
def zeroMem : Mem := fun _ => 0

/-- Pixel geometry of the scenario in the spec: 800×600, stride 832. -/
def testPixelInfo : EfiGraphicsOutputProtocolPixelInfo :=
  { version := 0
    horizontal_resolution := 800
    vertical_resolution := 600
    pixels_per_scan_line := 832 }

/-- A descriptor mode record over `testPixelInfo`. -/
def testMode : EfiGraphicsOutputProtocolMode :=
  { max_mode := 1
    mode := 0
    info := testPixelInfo
    size_of_info := 36
    frame_buffer_base := 0x80000000
    frame_buffer_size := 0x1e6000 }

/-- A descriptor over `testMode`. -/
def testProtocol : EfiGraphicsOutputProtocol := { mode := testMode }

/-- A firmware environment whose lookup succeeds with `testProtocol`. -/
def goodSystemTable : EfiSystemTable :=
  { boot_services := { locate_protocol := fun _ => (0, testProtocol) } }

/-- A firmware environment whose lookup fails (EFI_UNSUPPORTED-like code). -/
def badSystemTable : EfiSystemTable :=
  { boot_services :=
      { locate_protocol := fun _ => (0x8000000000000003, testProtocol) } }

/-! ### Claim theorems -/

/-- C1: for every coordinate pair `(x, y)`, the checked accessor
`pixel_at_mut` returns no value exactly when `x ≥ min(width, stride)` or
`y ≥ height` — so with `stride > width` a request at `x = width` is
rejected, width and not stride gating the x-range — and in that case
`draw_point` returns the `OutOfBounds` error with the memory unchanged. -/
theorem checked_accessor_gates_by_width_and_height
    (b : VramBufferInfo) (m : Mem) (color x y : Nat) :
    (pixel_at_mut b x y = none
      ↔ min b.width b.pixels_per_line ≤ x ∨ b.height ≤ y)
    ∧ (min b.width b.pixels_per_line ≤ x ∨ b.height ≤ y →
        draw_point b m color x y = (m, Except.error "Out of bounds")) := by
  refine ⟨pixel_at_mut_eq_none_iff b x y, fun hob => ?_⟩
  unfold draw_point
  rw [(pixel_at_mut_eq_none_iff b x y).mpr hob]

/-- C1 witness: on `testBuf` (width 4, stride 6) the request at
`x = width = 4 < stride` is rejected and the draw leaves memory intact. -/
theorem checked_accessor_gates_by_width_and_height_witness :
    pixel_at_mut testBuf 4 0 = none
    ∧ draw_point testBuf zeroMem 7 4 0
        = (zeroMem, Except.error "Out of bounds") :=
  ⟨(checked_accessor_gates_by_width_and_height testBuf zeroMem 7 4 0).1.mpr
      (Or.inl (by decide)),
   (checked_accessor_gates_by_width_and_height testBuf zeroMem 7 4 0).2
      (Or.inl (by decide))⟩

/-- C2: `fill_rect` validates the four corners `(x, y)` and the (wrapped)
`(x+w-1, y+h-1)` against `min(width, stride)` and `height` before writing;
if any validated corner is out of range it returns `OutOfBounds` with the
memory byte-for-byte unchanged, and if validation passes it succeeds and
every pixel of the `w`-by-`h` rectangle holds the given color. -/
theorem fill_rect_all_or_nothing
    (b : VramBufferInfo) (m : Mem) (color x y w h : Nat) :
    (min b.width b.pixels_per_line ≤ x ∨ b.height ≤ y
        ∨ min b.width b.pixels_per_line ≤ sub32 (add32 x w) 1
        ∨ b.height ≤ sub32 (add32 y h) 1 →
      fill_rect b m color x y w h = (m, Except.error "Out of bounds"))
    ∧ (x < min b.width b.pixels_per_line → y < b.height →
        sub32 (add32 x w) 1 < min b.width b.pixels_per_line →
        sub32 (add32 y h) 1 < b.height →
        (fill_rect b m color x y w h).2 = Except.ok ()
        ∧ ∀ i < h, ∀ j < w,
            (fill_rect b m color x y w h).1
              (unchecked_pixel_at_mut b (x + j) (y + i)) = color) := by
  constructor
  · intro hg
    unfold fill_rect
    rw [if_pos ((fill_rect_guard_iff b x y w h).mpr hg)]
  · intro h1 h2 h3 h4
    have hng : ¬((!(is_in_x_range b x) || !(is_in_y_range b y)
        || !(is_in_x_range b (sub32 (add32 x w) 1))
        || !(is_in_y_range b (sub32 (add32 y h) 1))) = true) := by
      rw [fill_rect_guard_iff]
      omega
    unfold fill_rect
    rw [if_neg hng]
    refine ⟨rfl, fun i hi j hj => ?_⟩
    rw [← unchecked_pixel_at_mut_add32]
    exact fill_rows_covered b m color x y w h i j hi hj

/-- C2 witness: on `testBuf` a rectangle poking past `width` is rejected
with memory intact, and an in-range 2×2 rectangle is fully painted. -/
theorem fill_rect_all_or_nothing_witness :
    fill_rect testBuf zeroMem 7 3 0 5 5
        = (zeroMem, Except.error "Out of bounds")
    ∧ ((fill_rect testBuf zeroMem 9 1 1 2 2).2 = Except.ok ()
       ∧ ∀ i < 2, ∀ j < 2,
          (fill_rect testBuf zeroMem 9 1 1 2 2).1
            (unchecked_pixel_at_mut testBuf (1 + j) (1 + i)) = 9) :=
  ⟨(fill_rect_all_or_nothing testBuf zeroMem 7 3 0 5 5).1
      (Or.inr (Or.inr (Or.inl (by decide)))),
   (fill_rect_all_or_nothing testBuf zeroMem 9 1 1 2 2).2
      (by decide) (by decide) (by decide) (by decide)⟩

/-- C3: with `w = 0` or `h = 0`, `fill_rect` never writes: despite the
underflowing corner computation it is either a clean no-op (`Ok` with
memory untouched) or a reported `OutOfBounds` (memory untouched as well),
and never an out-of-range write. -/
theorem fill_rect_zero_size_no_write
    (b : VramBufferInfo) (m : Mem) (color x y w h : Nat)
    (hwh : w = 0 ∨ h = 0) :
    (fill_rect b m color x y w h).1 = m
    ∧ ((fill_rect b m color x y w h).2 = Except.ok ()
       ∨ (fill_rect b m color x y w h).2
           = Except.error "Out of bounds") := by
  constructor
  · unfold fill_rect
    split
    · rfl
    · rcases hwh with hw | hh
      · subst hw
        exact fill_rows_zero_w b m color x y h
      · subst hh
        rfl
  · unfold fill_rect
    split
    · exact Or.inr rfl
    · exact Or.inl rfl

/-- C3 witness: a zero-width rectangle at `(1, 1)` on `testBuf` passes the
corner checks and is a clean no-op. -/
theorem fill_rect_zero_size_no_write_witness :
    (fill_rect testBuf zeroMem 9 1 1 0 2).1 = zeroMem
    ∧ ((fill_rect testBuf zeroMem 9 1 1 0 2).2 = Except.ok ()
       ∨ (fill_rect testBuf zeroMem 9 1 1 0 2).2
           = Except.error "Out of bounds") :=
  fill_rect_zero_size_no_write testBuf zeroMem 9 1 1 0 2 (Or.inl rfl)

/-- C4: round-trip — for `x < min(width, stride)` and `y < height`,
`draw_point(color, x, y)` succeeds and the checked read through
`pixel_at_mut` at `(x, y)` afterwards yields exactly `color`. -/
theorem draw_point_roundtrip (b : VramBufferInfo) (m : Mem) (color x y : Nat)
    (hx : x < min b.width b.pixels_per_line) (hy : y < b.height) :
    (draw_point b m color x y).2 = Except.ok ()
    ∧ (pixel_at_mut b x y).map (draw_point b m color x y).1 = some color := by
  have hsome := pixel_at_mut_eq_some b x y hx hy
  unfold draw_point
  rw [hsome]
  exact ⟨rfl, by simp [writeCell_self]⟩

/-- C4 witness: drawing color 7 at `(1, 2)` on `testBuf` succeeds and
reads back as 7. -/
theorem draw_point_roundtrip_witness :
    (draw_point testBuf zeroMem 7 1 2).2 = Except.ok ()
    ∧ (pixel_at_mut testBuf 1 2).map (draw_point testBuf zeroMem 7 1 2).1
        = some 7 :=
  draw_point_roundtrip testBuf zeroMem 7 1 2 (by decide) (by decide)

/-! ### Address injectivity (needed for the padding-column property) -/

lemma sub32_one (a : Nat) (h1 : 1 ≤ a) (h2 : a < u32Mod) :
    sub32 a 1 = a - 1 := by
  show (a + (4294967296 - 1 % 4294967296)) % 4294967296 = a - 1
  have h2' : a < 4294967296 := h2
  omega

lemma add32_zero_left (a : Nat) (h : a < u32Mod) : add32 0 a = a := by
  unfold add32
  rw [Nat.zero_add]
  exact Nat.mod_eq_of_lt h

/-- Linear index bound: a cell inside the `height × stride` grid has a
byte offset below `4 * height * stride`. -/
lemma index_bound (b : VramBufferInfo) (x y : Nat)
    (hx : x < b.pixels_per_line) (hy : y < b.height) :
    (y * b.pixels_per_line + x) * 4 < 4 * b.height * b.pixels_per_line := by
  have key : y * b.pixels_per_line + x < b.height * b.pixels_per_line :=
    calc y * b.pixels_per_line + x
        < y * b.pixels_per_line + b.pixels_per_line := by omega
      _ = (y + 1) * b.pixels_per_line := by ring
      _ ≤ b.height * b.pixels_per_line :=
          Nat.mul_le_mul_right b.pixels_per_line (by omega)
  calc (y * b.pixels_per_line + x) * 4
      < b.height * b.pixels_per_line * 4 := by omega
    _ = 4 * b.height * b.pixels_per_line := by ring

/-- When the whole buffer's byte extent fits in 32 bits, distinct columns
of the grid have distinct unchecked addresses. -/
lemma unchecked_pixel_at_mut_ne (b : VramBufferInfo)
    (hnof : 4 * b.height * b.pixels_per_line ≤ u32Mod)
    (x1 y1 x2 y2 : Nat)
    (hx1 : x1 < b.pixels_per_line) (hy1 : y1 < b.height)
    (hx2 : x2 < b.pixels_per_line) (hy2 : y2 < b.height)
    (hne : x1 ≠ x2) :
    unchecked_pixel_at_mut b x1 y1 ≠ unchecked_pixel_at_mut b x2 y2 := by
  have hb1 : (y1 * b.pixels_per_line + x1) * 4 < u32Mod :=
    lt_of_lt_of_le (index_bound b x1 y1 hx1 hy1) hnof
  have hb2 : (y2 * b.pixels_per_line + x2) * 4 < u32Mod :=
    lt_of_lt_of_le (index_bound b x2 y2 hx2 hy2) hnof
  rw [unchecked_pixel_at_mut_eq_of_lt b x1 y1 hb1,
    unchecked_pixel_at_mut_eq_of_lt b x2 y2 hb2]
  intro heq
  have hidx : y1 * b.pixels_per_line + x1 = y2 * b.pixels_per_line + x2 := by
    omega
  have hm1 : (y1 * b.pixels_per_line + x1) % b.pixels_per_line = x1 := by
    rw [Nat.mul_comm, Nat.mul_add_mod]
    exact Nat.mod_eq_of_lt hx1
  have hm2 : (y2 * b.pixels_per_line + x2) % b.pixels_per_line = x2 := by
    rw [Nat.mul_comm, Nat.mul_add_mod]
    exact Nat.mod_eq_of_lt hx2
  exact hne (by rw [← hm1, ← hm2, hidx])

/-! ### C5 -/

/-- A buffer whose byte extent overflows 32 bits: one visible column,
two rows, stride `2^30 + 1` pixels. -/
def wideStrideBuf : VramBufferInfo :=
  { buf := 0, width := 1, height := 2, pixels_per_line := 2 ^ 30 + 1 }

/-- C5 counterexample: the claim that a full-surface
`fill_rect(color, 0, 0, width, height)` leaves every padding cell
(`width ≤ x < stride`) unchanged fails on `wideStrideBuf`: the u32 offset
arithmetic wraps, the write for cell `(0, 1)` lands on the address of
padding cell `(1, 0)`, and that cell changes from 0 to the fill color 7. -/
theorem full_surface_fill_padding_cex :
    wideStrideBuf.width ≤ 1 ∧ 1 < wideStrideBuf.pixels_per_line
    ∧ zeroMem (unchecked_pixel_at_mut wideStrideBuf 1 0) = 0
    ∧ (fill_rect wideStrideBuf zeroMem 7 0 0 wideStrideBuf.width
          wideStrideBuf.height).2 = Except.ok ()
    ∧ (fill_rect wideStrideBuf zeroMem 7 0 0 wideStrideBuf.width
          wideStrideBuf.height).1
        (unchecked_pixel_at_mut wideStrideBuf 1 0) = 7 := by
  exact ⟨by decide, by decide, rfl, rfl, by decide⟩

/-- C5 as amended: under the layer's assumed invariant `width ≤ stride`
and a 32-bit bound on the buffer's byte extent (so the u32 offset
arithmetic cannot wrap), the full-surface fill
`fill_rect(color, 0, 0, width, height)` gives every cell with `x < width`
and `y < height` the color — the column `x = width - 1` included — while
every padding cell `width ≤ x < stride` (in any row `y < height`) keeps
its prior value. -/
theorem full_surface_fill_amended (b : VramBufferInfo) (m : Mem)
    (color : Nat)
    (hws : b.width ≤ b.pixels_per_line)
    (hnof : 4 * b.height * b.pixels_per_line ≤ u32Mod) :
    (∀ px < b.width, ∀ py < b.height,
       (fill_rect b m color 0 0 b.width b.height).1
         (unchecked_pixel_at_mut b px py) = color)
    ∧ (∀ px, b.width ≤ px → px < b.pixels_per_line → ∀ py < b.height,
        (fill_rect b m color 0 0 b.width b.height).1
          (unchecked_pixel_at_mut b px py)
          = m (unchecked_pixel_at_mut b px py)) := by
  by_cases hdeg : b.width = 0 ∨ b.height = 0
  · have hg : (!(is_in_x_range b 0) || !(is_in_y_range b 0)
        || !(is_in_x_range b (sub32 (add32 0 b.width) 1))
        || !(is_in_y_range b (sub32 (add32 0 b.height) 1))) = true := by
      apply (fill_rect_guard_iff b 0 0 b.width b.height).mpr
      rcases hdeg with h0 | h0
      · exact Or.inl (by omega)
      · exact Or.inr (Or.inl (by omega))
    constructor
    · intro px hpx py hpy
      rcases hdeg with h0 | h0 <;> omega
    · intro px hpx1 hpx2 py hpy
      unfold fill_rect
      rw [if_pos hg]
  · push_neg at hdeg
    have hw : 0 < b.width := Nat.pos_of_ne_zero hdeg.1
    have hh : 0 < b.height := Nat.pos_of_ne_zero hdeg.2
    have hpp : 0 < b.pixels_per_line := lt_of_lt_of_le hw hws
    have hU : u32Mod = 4294967296 := rfl
    have hpU : b.pixels_per_line < u32Mod := by
      have h4 : 4 * 1 * b.pixels_per_line ≤ 4 * b.height * b.pixels_per_line :=
        Nat.mul_le_mul_right b.pixels_per_line (by omega)
      have h4' : 4 * 1 * b.pixels_per_line = 4 * b.pixels_per_line := by ring
      omega
    have hwU : b.width < u32Mod := lt_of_le_of_lt hws hpU
    have hhU : b.height < u32Mod := by
      have h4 : 4 * b.height * 1 ≤ 4 * b.height * b.pixels_per_line :=
        Nat.mul_le_mul_left (4 * b.height) (by omega)
      have h4' : 4 * b.height * 1 = 4 * b.height := by ring
      omega
    have hcx : sub32 (add32 0 b.width) 1 = b.width - 1 := by
      rw [add32_zero_left b.width hwU]
      exact sub32_one b.width hw hwU
    have hcy : sub32 (add32 0 b.height) 1 = b.height - 1 := by
      rw [add32_zero_left b.height hhU]
      exact sub32_one b.height hh hhU
    have hng : ¬((!(is_in_x_range b 0) || !(is_in_y_range b 0)
        || !(is_in_x_range b (sub32 (add32 0 b.width) 1))
        || !(is_in_y_range b (sub32 (add32 0 b.height) 1))) = true) := by
      rw [fill_rect_guard_iff, hcx, hcy]
      omega
    constructor
    · intro px hpx py hpy
      unfold fill_rect
      rw [if_neg hng]
      have hc := fill_rows_covered b m color 0 0 b.width b.height py px hpy hpx
      rw [unchecked_pixel_at_mut_add32, Nat.zero_add, Nat.zero_add] at hc
      exact hc
    · intro px hpx1 hpx2 py hpy
      unfold fill_rect
      rw [if_neg hng]
      apply fill_rows_frame
      intro i hi j hj
      rw [unchecked_pixel_at_mut_add32, Nat.zero_add, Nat.zero_add]
      exact unchecked_pixel_at_mut_ne b hnof px py j i hpx2 hpy
        (lt_of_lt_of_le hj hws) hi (by omega)

/-- C5 witness for the amended claim: on `testBuf` (width 4, stride 6,
byte extent 96 ≤ 2^32) the full-surface fill paints all 4×4 visible cells
with color 5 and leaves the two padding columns at their prior value. -/
theorem full_surface_fill_amended_witness :
    (∀ px < testBuf.width, ∀ py < testBuf.height,
       (fill_rect testBuf zeroMem 5 0 0 testBuf.width testBuf.height).1
         (unchecked_pixel_at_mut testBuf px py) = 5)
    ∧ (∀ px, testBuf.width ≤ px → px < testBuf.pixels_per_line →
        ∀ py < testBuf.height,
          (fill_rect testBuf zeroMem 5 0 0 testBuf.width testBuf.height).1
            (unchecked_pixel_at_mut testBuf px py)
            = zeroMem (unchecked_pixel_at_mut testBuf px py)) :=
  full_surface_fill_amended testBuf zeroMem 5 (by decide) (by decide)

/-- C6: the unchecked accessor computes the address
`base + (y * stride + x) * bytes_per_pixel` (reduced modulo 2^32, the u32
arithmetic of the source) with `bytes_per_pixel` fixed at 4 for the VRAM
buffer, and the row offset keys off the stride (`pixels_per_line`), never
off `width`: changing `width` alone never changes any address. -/
theorem unchecked_addr_formula (b : VramBufferInfo) (x y w' : Nat) :
    unchecked_pixel_at_mut b x y
      = b.buf + (y * b.pixels_per_line + x) * b.bytes_per_pixel % u32Mod
    ∧ b.bytes_per_pixel = 4
    ∧ unchecked_pixel_at_mut { b with width := w' } x y
        = unchecked_pixel_at_mut b x y := by
  refine ⟨?_, rfl, rfl⟩
  unfold unchecked_pixel_at_mut mul32 add32
  rw [Nat.mod_add_mod, Nat.mod_mul_mod]

/-- C7: the locator returns the error value with its human-readable reason
for every non-success status code of the firmware's capability lookup, and
returns the descriptor written into its output slot exactly when the
status is success (raw code 0). -/
theorem locate_graphic_protocol_spec (st : EfiSystemTable) :
    ((st.boot_services.locate_protocol EFI_GRAPHICS_OUTPUT_PROTOCOL_GUID).1
        ≠ 0 →
      locate_graphic_protocol st
        = Except.error "Failed to locate Graphics Output Protocol")
    ∧ (locate_graphic_protocol st
        = Except.ok
            (st.boot_services.locate_protocol
              EFI_GRAPHICS_OUTPUT_PROTOCOL_GUID).2
      ↔ (st.boot_services.locate_protocol
            EFI_GRAPHICS_OUTPUT_PROTOCOL_GUID).1 = 0) := by
  unfold locate_graphic_protocol
  by_cases hs : (st.boot_services.locate_protocol
      EFI_GRAPHICS_OUTPUT_PROTOCOL_GUID).1 = 0
  · simp [hs]
  · simp [hs]

/-- C7 witness: a failing environment yields the locate error; a
successful one yields the descriptor it wrote into the output slot. -/
theorem locate_graphic_protocol_spec_witness :
    locate_graphic_protocol badSystemTable
        = Except.error "Failed to locate Graphics Output Protocol"
    ∧ locate_graphic_protocol goodSystemTable = Except.ok testProtocol :=
  ⟨(locate_graphic_protocol_spec badSystemTable).1 (by decide),
   (locate_graphic_protocol_spec goodSystemTable).2.mpr rfl⟩

/-- C8: the structural layout invariants the source asserts at build time
hold under the C layout rules: `locate_protocol` sits at byte offset 320
of the boot-services table, the system table's `boot_services` reference
sits at byte offset 96, and the pixel-format sub-record is exactly 36
bytes (version at 0, horizontal resolution at 4, vertical resolution at 8,
20 padding bytes at 12, stride at 32). -/
theorem layout_asserts_hold :
    offsetsC 0 bootServicesFields = [0, 320]
    ∧ offsetsC 0 systemTableFields = [0, 96]
    ∧ sizeC pixelInfoFields = 36
    ∧ offsetsC 0 pixelInfoFields = [0, 4, 8, 12, 32] := by
  decide

/-- C9: for every successfully located descriptor, `init_vram` copies
exactly the base address and the three geometry fields into the buffer
view — whatever their values, with no validation — and its type touches no
buffer contents. -/
theorem init_vram_copies_fields (st : EfiSystemTable)
    (gp : EfiGraphicsOutputProtocol)
    (h : locate_graphic_protocol st = Except.ok gp) :
    init_vram st
      = Except.ok
          { buf := gp.mode.frame_buffer_base
            width := gp.mode.info.horizontal_resolution
            height := gp.mode.info.vertical_resolution
            pixels_per_line := gp.mode.info.pixels_per_scan_line } := by
  unfold init_vram
  rw [h]

/-- C9 witness: on the successful environment the constructed view holds
exactly the descriptor's base and geometry. -/
theorem init_vram_copies_fields_witness :
    init_vram goodSystemTable
      = Except.ok
          { buf := 0x80000000
            width := 800
            height := 600
            pixels_per_line := 832 } :=
  init_vram_copies_fields goodSystemTable testProtocol rfl

/-- C10: frame condition of successful draws — a successful
`draw_point(color, x, y)` changes only the cell at `(x, y)`, and a
successful `fill_rect(color, x, y, w, h)` changes only cells `(x', y')`
with `x ≤ x' ≤ x + w - 1` and `y ≤ y' ≤ y + h - 1`; every other byte of
the buffer keeps its prior value. -/
theorem successful_draw_frame_condition (b : VramBufferInfo) (m : Mem)
    (color x y w h a : Nat) :
    ((draw_point b m color x y).2 = Except.ok () →
      a ≠ unchecked_pixel_at_mut b x y →
      (draw_point b m color x y).1 a = m a)
    ∧ ((fill_rect b m color x y w h).2 = Except.ok () →
        (∀ x' < x + w, ∀ y' < y + h, x ≤ x' → y ≤ y' →
          a ≠ unchecked_pixel_at_mut b x' y') →
        (fill_rect b m color x y w h).1 a = m a) := by
  constructor
  · intro hok ha
    unfold draw_point at hok ⊢
    cases hp : pixel_at_mut b x y with
    | none => rfl
    | some addr =>
        have haddr : addr = unchecked_pixel_at_mut b x y := by
          unfold pixel_at_mut at hp
          by_cases hc : (is_in_x_range b x && is_in_y_range b y) = true
          · rw [if_pos hc] at hp
            exact (Option.some.injEq _ _ ▸ hp).symm
          · rw [if_neg hc] at hp
            exact absurd hp (by simp)
        show writeCell m addr color a = m a
        exact writeCell_ne m addr color a (haddr ▸ ha)
  · intro hok ha
    unfold fill_rect at hok ⊢
    by_cases hg : (!(is_in_x_range b x) || !(is_in_y_range b y)
        || !(is_in_x_range b (sub32 (add32 x w) 1))
        || !(is_in_y_range b (sub32 (add32 y h) 1))) = true
    · rw [if_pos hg] at hok
      exact absurd hok (by simp)
    · rw [if_neg hg]
      apply fill_rows_frame
      intro i hi j hj
      rw [unchecked_pixel_at_mut_add32]
      exact ha (x + j) (by omega) (y + i) (by omega) (by omega) (by omega)

/-- C10 witness: on `testBuf`, a successful point draw at `(1, 1)` and a
successful 2×2 fill at `(1, 1)` both leave the cell at byte address 0
untouched. -/
theorem successful_draw_frame_condition_witness :
    (draw_point testBuf zeroMem 7 1 1).1 0 = zeroMem 0
    ∧ (fill_rect testBuf zeroMem 9 1 1 2 2).1 0 = zeroMem 0 :=
  ⟨(successful_draw_frame_condition testBuf zeroMem 7 1 1 2 2 0).1
      rfl (by decide),
   (successful_draw_frame_condition testBuf zeroMem 9 1 1 2 2 0).2
      rfl (by decide)⟩
